import Mathlib

/-!
Verification of the EDL codec of blender_edl_exporter
(src/edl_export.py and src/edl_import.py).

The Python code is shallowly embedded: Python integers become Int
(arbitrary precision, like Python ints), Python `//` and `%` on the
nonnegative-divisor uses in this code coincide with Lean's Euclidean
`/` and `%` on Int, strings become String, and fallible code returns
Except.  Printed diagnostics are returned as a List String alongside
results.  Everything is executable.
-/

/-- Python's builtin abs on an integer. -/
def pyAbs (n : Int) : Int := if n < 0 then -n else n

/-- Left-pad a string with zeros up to width w (no-op when already long enough). -/
def zpad (w : Nat) (s : String) : String :=
  String.mk (List.replicate (w - s.length) '0') ++ s

/-- Python format spec 02d: zero-pad to width 2, sign counted in the width. -/
def pyFmt02d (n : Int) : String :=
  if n < 0 then "-" ++ zpad 1 (toString n.natAbs) else zpad 2 (toString n.natAbs)

/-- Python format spec 03d. -/
def pyFmt03d (n : Int) : String :=
  if n < 0 then "-" ++ zpad 2 (toString n.natAbs) else zpad 3 (toString n.natAbs)

/-- Python format spec 04d. -/
def pyFmt04d (n : Int) : String :=
  if n < 0 then "-" ++ zpad 3 (toString n.natAbs) else zpad 4 (toString n.natAbs)

/-- Python str.ljust via a format spec such as <11s: pad on the right with
spaces to the minimum width (never truncates). -/
def pyLjust (w : Nat) (s : String) : String :=
  s ++ String.mk (List.replicate (w - s.length) ' ')

/-- Python format spec >3s: pad on the left with spaces to the minimum width. -/
def pyRjust (w : Nat) (s : String) : String :=
  String.mk (List.replicate (w - s.length) ' ') ++ s

/--
The slot layout shared by the exporter's and the importer's TimeCode
classes: fps plus the four components hours, minutes, seconds, frame.
Both classes carry the same five slots, so one Lean structure serves
both modules; the methods are modelled separately in namespaces
EdlExport and EdlImport because their bodies differ.
-/
structure TimeCode where
  fps : Int
  hours : Int
  minutes : Int
  seconds : Int
  frame : Int
deriving DecidableEq, Repr

namespace EdlExport

/-- TimeCode.from_frame of src/edl_export.py (lines 98-126): repeated
Euclidean modulo and exact division, then the sign of the input is
reapplied to every field.  Python's % and // here act on a nonnegative
value with positive divisors, where they agree with Int.emod/Int.ediv. -/
def from_frame (fps frame : Int) : TimeCode :=
  let frame1 := if frame < 0 then -frame else frame
  let fr := frame1 % fps
  let frame2 := (frame1 - fr) / fps
  let secs := frame2 % 60
  let frame3 := (frame2 - secs) / 60
  let mins := frame3 % 60
  let hrs := (frame3 - mins) / 60
  if frame < 0 then ⟨fps, -hrs, -mins, -secs, -fr⟩ else ⟨fps, hrs, mins, secs, fr⟩

/-- TimeCode.as_frame of src/edl_export.py (lines 128-140): absolute
values of the four fields are summed and the result is negated exactly
when the hours field is negative. -/
def as_frame (tc : TimeCode) : Int :=
  let abs_frame :=
    pyAbs tc.hours * 60 * 60 * tc.fps +
    pyAbs tc.minutes * 60 * tc.fps +
    pyAbs tc.seconds * tc.fps +
    pyAbs tc.frame
  if tc.hours < 0 then -abs_frame else abs_frame

/-- TimeCode.__str__ of src/edl_export.py (line 148): each field is
passed through abs() and formatted with 02d, colon separated. -/
def toStr (tc : TimeCode) : String :=
  pyFmt02d (pyAbs tc.hours) ++ ":" ++ pyFmt02d (pyAbs tc.minutes) ++ ":" ++
  pyFmt02d (pyAbs tc.seconds) ++ ":" ++ pyFmt02d (pyAbs tc.frame)

end EdlExport

/-- Floor of the base-2 logarithm, by structural recursion on explicit
fuel: each step halves the argument.  Used to locate the binade of a
float quotient. -/
def natLog2Fuel : Nat → Nat → Nat
  | 0, _ => 0
  | fuel + 1, n => if n < 2 then 0 else natLog2Fuel fuel (n / 2) + 1

/-- Floor of the base-2 logarithm; fuel 1100 covers every value below
2^1100, comfortably past the binary64 range Python can produce before
raising OverflowError. -/
def natLog2 (n : Nat) : Nat := natLog2Fuel 1100 n

/-- Round the rational num/den to the nearest integer, ties to even. -/
def roundNearestEven (num den : Nat) : Nat :=
  let q := num / den
  let r := num % den
  if 2 * r < den then q
  else if den < 2 * r then q + 1
  else if q % 2 = 0 then q else q + 1

/-- CPython int(a / b) on positive ints with b ≤ a: true division
yields the exact quotient a/b correctly rounded to IEEE-754 binary64
(round to nearest, ties to even), and int() truncates toward zero.
With e the exponent of the quotient binade (taken from the floor
quotient), the doubles of that binade form the grid of multiples of
2^(e-52), so the rounded mantissa is the nearest integer (ties to
even) to a*2^(52-e)/b, or to a/(b*2^(e-52)) when e > 52.  The callers
guard b ≤ a, so the quotient is at least 1 and normal; quotients past
the binary64 range raise OverflowError in Python and are outside this
model and every theorem below. -/
def pyIntDivFloat (a b : Nat) : Nat :=
  let e := natLog2 (a / b)
  if e ≤ 52 then
    roundNearestEven (a * 2 ^ (52 - e)) b / 2 ^ (52 - e)
  else
    roundNearestEven a (b * 2 ^ (e - 52)) * 2 ^ (e - 52)

/-- CPython int(a / b) on Int operands, used with 0 < b ≤ a. -/
def pyIntDivFloatI (a b : Int) : Int := (pyIntDivFloat a.toNat b.toNat : Nat)

namespace EdlImport

/-- TimeCode.from_frame of src/edl_import.py (lines 146-190): guarded
division by frames-per-hour and frames-per-minute with modulo, then the
sign of the input is reapplied to every field.  Python computes each
quotient as int(frame / fph): float TRUE division, modelled exactly by
pyIntDivFloatI.  It coincides with floor division only while the
binary64 rounding cannot cross an integer — in particular whenever the
dividend is below 2^53 — and rounds the quotient up past an integer
otherwise (e.g. hours 2^37 + 1 for frame 137438953472 * 90000 + 89999
at fps 25).  The remainders use Python %, exact integer arithmetic. -/
def from_frame (fps frame : Int) : TimeCode :=
  let frame1 := if frame < 0 then -frame else frame
  let fpm := 60 * fps
  let fph := 60 * fpm
  let hrs := if frame1 < fph then 0 else pyIntDivFloatI frame1 fph
  let frame2 := if frame1 < fph then frame1 else frame1 % fph
  let mins := if frame2 < fpm then 0 else pyIntDivFloatI frame2 fpm
  let frame3 := if frame2 < fpm then frame2 else frame2 % fpm
  let secs := if frame3 < fps then 0 else pyIntDivFloatI frame3 fps
  let frame4 := if frame3 < fps then frame3 else frame3 % fps
  if frame < 0 then ⟨fps, -hrs, -mins, -secs, -frame4⟩ else ⟨fps, hrs, mins, secs, frame4⟩

/-- TimeCode.as_frame of src/edl_import.py (lines 192-202): the plain
signed sum of the fields weighted by fps — no absolute values and no
hours-sign handling, unlike the exporter's version. -/
def as_frame (tc : TimeCode) : Int :=
  tc.frame + tc.seconds * tc.fps + tc.minutes * 60 * tc.fps + tc.hours * 60 * 60 * tc.fps

/-- TimeCode.__str__ of src/edl_import.py (line 210): fields formatted
with 02d directly — no abs(), unlike the exporter's version. -/
def toStr (tc : TimeCode) : String :=
  pyFmt02d tc.hours ++ ":" ++ pyFmt02d tc.minutes ++ ":" ++
  pyFmt02d tc.seconds ++ ":" ++ pyFmt02d tc.frame

end EdlImport

/-! Arithmetic helper lemmas about Euclidean division used to put both
from_frame implementations into a canonical form. -/

lemma int_ediv_ediv (a : Int) {b c : Int} (hb : 0 < b) (hc : 0 < c) :
    a / b / c = a / (b * c) := by
  have hbc : 0 < b * c := mul_pos hb hc
  have h0 : b * c * (a / (b * c)) + a % (b * c) = a := Int.ediv_add_emod a (b * c)
  set q := a / (b * c) with hq
  set r := a % (b * c) with hr
  have hr0 : 0 ≤ r := Int.emod_nonneg a hbc.ne'
  have hr1 : r < b * c := Int.emod_lt_of_pos a hbc
  have h2 : a / b = r / b + c * q := by
    conv_lhs => rw [← h0]
    have he : b * c * q + r = r + b * (c * q) := by ring
    rw [he, Int.add_mul_ediv_left r (c * q) hb.ne']
  have h3 : r / b < c := by
    rw [Int.ediv_lt_iff_lt_mul hb]
    calc r < b * c := hr1
    _ = c * b := by ring
  have h4 : 0 ≤ r / b := Int.ediv_nonneg hr0 hb.le
  rw [h2, Int.add_mul_ediv_left _ q hc.ne', Int.ediv_eq_zero_of_lt h4 h3, zero_add]

lemma int_emod_mul_ediv (a b c : Int) (hb : 0 < b) (hc : 0 < c) :
    a % (c * b) / b = a / b % c := by
  have hcb : 0 < c * b := mul_pos hc hb
  have h0 : c * b * (a / (c * b)) + a % (c * b) = a := Int.ediv_add_emod a (c * b)
  set q := a / (c * b) with hq
  set r := a % (c * b) with hr
  have hr0 : 0 ≤ r := Int.emod_nonneg a hcb.ne'
  have hr1 : r < c * b := Int.emod_lt_of_pos a hcb
  have h2 : a / b = r / b + c * q := by
    conv_lhs => rw [← h0]
    have he : c * b * q + r = r + b * (c * q) := by ring
    rw [he, Int.add_mul_ediv_left r (c * q) hb.ne']
  have h3 : r / b < c := by rw [Int.ediv_lt_iff_lt_mul hb]; exact hr1
  have h4 : 0 ≤ r / b := Int.ediv_nonneg hr0 hb.le
  rw [h2, Int.add_mul_emod_self_left, Int.emod_eq_of_lt h4 h3]

lemma sub_emod_ediv (a b : Int) (hb : b ≠ 0) : (a - a % b) / b = a / b := by
  have h1 : a - a % b = b * (a / b) := by rw [Int.emod_def]; ring
  rw [h1, Int.mul_ediv_cancel_left _ hb]

/-- The exporter's from_frame on a nonnegative input, in canonical form. -/
lemma export_from_frame_nonneg (fps f : Int) (hfps : 0 < fps) (hf : 0 ≤ f) :
    EdlExport.from_frame fps f =
      ⟨fps, f / fps / 60 / 60, f / fps / 60 % 60, f / fps % 60, f % fps⟩ := by
  have hn : ¬ f < 0 := not_lt.mpr hf
  simp only [EdlExport.from_frame, hn, if_false]
  rw [sub_emod_ediv f fps hfps.ne']
  rw [sub_emod_ediv (f / fps) 60 (by norm_num)]
  rw [sub_emod_ediv (f / fps / 60) 60 (by norm_num)]

lemma natLog2Fuel_spec : ∀ (fuel n : Nat), 0 < n → n < 2 ^ fuel →
    2 ^ natLog2Fuel fuel n ≤ n ∧ n < 2 ^ (natLog2Fuel fuel n + 1) := by
  intro fuel
  induction fuel with
  | zero =>
    intro n h1 h2
    simp at h2
    omega
  | succ fuel ih =>
    intro n h1 h2
    simp only [natLog2Fuel]
    split_ifs with h
    · constructor
      · simpa using h1
      · simpa using h
    · have hn2 : 0 < n / 2 := by omega
      have hpow : (2 : Nat) ^ (fuel + 1) = 2 * 2 ^ fuel := by rw [pow_succ]; ring
      have hn2b : n / 2 < 2 ^ fuel := by omega
      obtain ⟨l, u⟩ := ih (n / 2) hn2 hn2b
      have e1 : (2 : Nat) ^ (natLog2Fuel fuel (n / 2) + 1) =
          2 * 2 ^ natLog2Fuel fuel (n / 2) := by rw [pow_succ]; ring
      have e2 : (2 : Nat) ^ (natLog2Fuel fuel (n / 2) + 1 + 1) =
          2 * 2 ^ (natLog2Fuel fuel (n / 2) + 1) := by rw [pow_succ]; ring
      constructor
      · omega
      · omega

lemma natLog2_spec (n : Nat) (h1 : 0 < n) (h2 : n < 2 ^ 1100) :
    2 ^ natLog2 n ≤ n ∧ n < 2 ^ (natLog2 n + 1) :=
  natLog2Fuel_spec 1100 n h1 h2

/-- Truncating the correctly rounded binary64 quotient agrees with floor
division while the half-ulp of the quotient binade stays below the
spacing 1/b of the exact quotients, which the bound a < 2^53 ensures. -/
lemma roundNearestEven_div_pow (a b e : Nat) (hb : 0 < b)
    (heL : 2 ^ e ≤ a / b) (ha : a < 2 ^ 53) (he52 : e ≤ 52) :
    roundNearestEven (a * 2 ^ (52 - e)) b / 2 ^ (52 - e) = a / b := by
  set s := 52 - e with hsdef
  have hspos : 0 < (2 : Nat) ^ s := pow_pos (by norm_num) s
  set N := a * 2 ^ s with hNdef
  have hq : N / b / 2 ^ s = a / b := by
    rw [Nat.div_div_eq_div_mul]
    exact Nat.mul_div_mul_right a b hspos
  have hup : b ≤ 2 * (N % b) → (N / b + 1) / 2 ^ s = a / b := by
    intro h2r
    have hQdef : N / b = 2 ^ s * (a / b) + N / b % 2 ^ s := by
      conv_lhs => rw [← Nat.div_add_mod (N / b) (2 ^ s), hq]
    set t := N / b % 2 ^ s with htdef
    have htlt : t < 2 ^ s := Nat.mod_lt _ hspos
    rcases Nat.lt_or_ge (t + 1) (2 ^ s) with hlt | hge
    · have hstep : N / b + 1 = (t + 1) + 2 ^ s * (a / b) := by rw [hQdef]; ring
      rw [hstep, Nat.add_mul_div_left _ _ hspos, Nat.div_eq_of_lt hlt, Nat.zero_add]
    · exfalso
      have hteq : t + 1 = 2 ^ s := by omega
      have hNsplit : b * (N / b) + N % b = N := Nat.div_add_mod N b
      have hasplit : b * (a / b) + a % b = a := Nat.div_add_mod a b
      have hkey : b * t + N % b = (a % b) * 2 ^ s := by
        have e1 : N = b * (a / b) * 2 ^ s + (a % b) * 2 ^ s := by
          rw [hNdef]
          conv_lhs => rw [← hasplit]
          ring
        have e2 : N = b * (a / b) * 2 ^ s + (b * t + N % b) := by
          conv_lhs => rw [← hNsplit, hQdef]
          ring
        linarith [e1, e2]
      have hrab : a % b < b := Nat.mod_lt _ hb
      have hA : (a % b + 1) * 2 ^ s ≤ b * 2 ^ s := Nat.mul_le_mul_right _ (by omega)
      have hB : b * 2 ^ s = b * t + b := by rw [← hteq]; ring
      have hC : (a % b + 1) * 2 ^ s = (a % b) * 2 ^ s + 2 ^ s := by ring
      have hD : N % b + 2 ^ s ≤ b := by linarith
      have hE : 2 * 2 ^ s ≤ b := by linarith
      have hse : 2 ^ s * 2 ^ e = 2 ^ 52 := by
        rw [← pow_add]
        congr 1
        omega
      have hF : 2 ^ 53 ≤ b * 2 ^ e := by
        have h1 : (2 : Nat) ^ 53 = 2 * 2 ^ 52 := by rw [pow_succ]; ring
        calc (2 : Nat) ^ 53 = 2 * (2 ^ s * 2 ^ e) := by rw [hse, h1]
        _ = (2 * 2 ^ s) * 2 ^ e := by ring
        _ ≤ b * 2 ^ e := Nat.mul_le_mul_right _ hE
      have hG : b * 2 ^ e ≤ b * (a / b) := Nat.mul_le_mul_left _ heL
      have hH : b * (a / b) ≤ a := by
        calc b * (a / b) = a / b * b := by ring
        _ ≤ a := Nat.div_mul_le_self a b
      linarith
  simp only [roundNearestEven]
  split_ifs with h1 h2 h3
  · exact hq
  · exact hup (le_of_lt h2)
  · exact hq
  · exact hup (Nat.le_of_not_lt h1)

/-- Below 2^53 the float-mediated quotient equals floor division. -/
lemma pyIntDivFloat_eq_div (a b : Nat) (hb : 0 < b) (hba : b ≤ a) (ha : a < 2 ^ 53) :
    pyIntDivFloat a b = a / b := by
  have hQ1 : 0 < a / b := Nat.div_pos hba hb
  have hQa : a / b ≤ a := Nat.div_le_self a b
  have hlt : a / b < 2 ^ 1100 := by
    have h1 : (2 : Nat) ^ 53 ≤ 2 ^ 1100 := Nat.pow_le_pow_right (by norm_num) (by norm_num)
    linarith
  obtain ⟨heL, heU⟩ := natLog2_spec (a / b) hQ1 hlt
  have he52 : natLog2 (a / b) ≤ 52 := by
    by_contra hcon
    push_neg at hcon
    have h1 : (2 : Nat) ^ 53 ≤ 2 ^ natLog2 (a / b) := Nat.pow_le_pow_right (by norm_num) hcon
    linarith
  simp only [pyIntDivFloat]
  rw [if_pos he52]
  exact roundNearestEven_div_pow a b (natLog2 (a / b)) hb heL ha he52

/-- Eliminate a guarded float-mediated quotient of the importer's
from_frame: below 2^53 it is plain Euclidean division. -/
lemma guard_fdiv (x d : Int) (hx : 0 ≤ x) (hd : 0 < d) (hbound : x < 2 ^ 53) :
    (if x < d then (0 : Int) else pyIntDivFloatI x d) = x / d := by
  split_ifs with h
  · rw [Int.ediv_eq_zero_of_lt hx h]
  · push_neg at h
    have h1 : 0 < d.toNat := by omega
    have h2 : d.toNat ≤ x.toNat := by omega
    have h3 : x.toNat < 2 ^ 53 := by
      have hx1 : (x.toNat : Int) = x := Int.toNat_of_nonneg hx
      have hx2 : (x.toNat : Int) < (2 : Int) ^ 53 := by rw [hx1]; exact hbound
      exact_mod_cast hx2
    unfold pyIntDivFloatI
    rw [pyIntDivFloat_eq_div x.toNat d.toNat h1 h2 h3, Int.ofNat_ediv,
      Int.toNat_of_nonneg hx, Int.toNat_of_nonneg hd.le]

/-- Eliminate a guarded remainder of the importer's from_frame. -/
lemma guard_emod (x d : Int) (hx : 0 ≤ x) :
    (if x < d then x else x % d) = x % d := by
  split_ifs with h
  · rw [Int.emod_eq_of_lt hx h]
  · rfl

/-- A Euclidean remainder of a nonnegative value never exceeds it. -/
lemma emod_le_self_of_nonneg (x d : Int) (hx : 0 ≤ x) (hd : 0 < d) : x % d ≤ x := by
  have h1 := Int.ediv_add_emod x d
  have h2 : 0 ≤ x / d := Int.ediv_nonneg hx hd.le
  have h3 : 0 ≤ d * (x / d) := mul_nonneg hd.le h2
  linarith

/-- The importer's from_frame on a nonnegative input below 2^53 (where
its float-mediated divisions are exact), in canonical form. -/
lemma import_from_frame_nonneg (fps f : Int) (hfps : 0 < fps) (hf : 0 ≤ f)
    (hbound : f < 2 ^ 53) :
    EdlImport.from_frame fps f =
      ⟨fps, f / (60 * (60 * fps)), f % (60 * (60 * fps)) / (60 * fps),
        f % (60 * (60 * fps)) % (60 * fps) / fps,
        f % (60 * (60 * fps)) % (60 * fps) % fps⟩ := by
  have hn : ¬ f < 0 := not_lt.mpr hf
  have hFpos : (0 : Int) < 60 * (60 * fps) := by positivity
  have h1 : 0 ≤ f % (60 * (60 * fps)) := Int.emod_nonneg f hFpos.ne'
  have hMpos : (0 : Int) < 60 * fps := by positivity
  have h2 : 0 ≤ f % (60 * (60 * fps)) % (60 * fps) := Int.emod_nonneg _ hMpos.ne'
  have hb1 : f % (60 * (60 * fps)) < 2 ^ 53 :=
    lt_of_le_of_lt (emod_le_self_of_nonneg f _ hf hFpos) hbound
  have hb2 : f % (60 * (60 * fps)) % (60 * fps) < 2 ^ 53 :=
    lt_of_le_of_lt (emod_le_self_of_nonneg _ _ h1 hMpos) hb1
  simp only [EdlImport.from_frame, hn, if_false]
  rw [guard_fdiv f (60 * (60 * fps)) hf hFpos hbound, guard_emod f (60 * (60 * fps)) hf]
  rw [guard_fdiv _ (60 * fps) h1 hMpos hb1, guard_emod _ (60 * fps) h1]
  rw [guard_fdiv _ fps h2 hfps hb2, guard_emod _ fps h2]

/-- The exporter's from_frame on a negative input negates every field of
the decomposition of the absolute value. -/
lemma export_from_frame_neg_eq (fps f : Int) (hf : f < 0) :
    EdlExport.from_frame fps f =
      ⟨fps, -(EdlExport.from_frame fps (-f)).hours,
        -(EdlExport.from_frame fps (-f)).minutes,
        -(EdlExport.from_frame fps (-f)).seconds,
        -(EdlExport.from_frame fps (-f)).frame⟩ := by
  have hn : ¬ -f < 0 := by omega
  simp only [EdlExport.from_frame, hf, hn, if_true, if_false]

/-- The importer's from_frame on a negative input negates every field of
the decomposition of the absolute value. -/
lemma import_from_frame_neg_eq (fps f : Int) (hf : f < 0) :
    EdlImport.from_frame fps f =
      ⟨fps, -(EdlImport.from_frame fps (-f)).hours,
        -(EdlImport.from_frame fps (-f)).minutes,
        -(EdlImport.from_frame fps (-f)).seconds,
        -(EdlImport.from_frame fps (-f)).frame⟩ := by
  have hn : ¬ -f < 0 := by omega
  simp only [EdlImport.from_frame, hf, hn, if_true, if_false]

/-- Round trip of the exporter's pair on nonnegative frame counts. -/
lemma export_roundtrip_nonneg (fps f : Int) (hfps : 0 < fps) (hf : 0 ≤ f) :
    EdlExport.as_frame (EdlExport.from_frame fps f) = f := by
  rw [export_from_frame_nonneg fps f hfps hf]
  have h1 : 0 ≤ f % fps := Int.emod_nonneg f hfps.ne'
  have hq1 : 0 ≤ f / fps := Int.ediv_nonneg hf hfps.le
  have h2 : 0 ≤ f / fps % 60 := Int.emod_nonneg _ (by norm_num)
  have hq2 : 0 ≤ f / fps / 60 := Int.ediv_nonneg hq1 (by norm_num)
  have h3 : 0 ≤ f / fps / 60 % 60 := Int.emod_nonneg _ (by norm_num)
  have hq3 : 0 ≤ f / fps / 60 / 60 := Int.ediv_nonneg hq2 (by norm_num)
  simp only [EdlExport.as_frame, pyAbs]
  rw [if_neg (not_lt.mpr hq3), if_neg (not_lt.mpr h3), if_neg (not_lt.mpr h2),
    if_neg (not_lt.mpr h1), if_neg (not_lt.mpr hq3)]
  have e0 : fps * (f / fps) + f % fps = f := Int.ediv_add_emod f fps
  have e1 : 60 * (f / fps / 60) + f / fps % 60 = f / fps := Int.ediv_add_emod (f / fps) 60
  have e2 : 60 * (f / fps / 60 / 60) + f / fps / 60 % 60 = f / fps / 60 :=
    Int.ediv_add_emod (f / fps / 60) 60
  linear_combination e0 + fps * e1 + (60 * fps) * e2

/-- Round trip of the importer's pair on nonnegative frame counts below
the float-exactness bound. -/
lemma import_roundtrip_nonneg (fps f : Int) (hfps : 0 < fps) (hf : 0 ≤ f)
    (hbound : f < 2 ^ 53) :
    EdlImport.as_frame (EdlImport.from_frame fps f) = f := by
  rw [import_from_frame_nonneg fps f hfps hf hbound]
  simp only [EdlImport.as_frame]
  have e2 : 60 * (60 * fps) * (f / (60 * (60 * fps))) + f % (60 * (60 * fps)) = f :=
    Int.ediv_add_emod f (60 * (60 * fps))
  have e1 : 60 * fps * (f % (60 * (60 * fps)) / (60 * fps)) +
      f % (60 * (60 * fps)) % (60 * fps) = f % (60 * (60 * fps)) :=
    Int.ediv_add_emod (f % (60 * (60 * fps))) (60 * fps)
  have e0 : fps * (f % (60 * (60 * fps)) % (60 * fps) / fps) +
      f % (60 * (60 * fps)) % (60 * fps) % fps = f % (60 * (60 * fps)) % (60 * fps) :=
    Int.ediv_add_emod (f % (60 * (60 * fps)) % (60 * fps)) fps
  linear_combination e0 + e1 + e2

/-- The fps slot is copied unchanged by the importer's from_frame. -/
lemma import_from_frame_fps (fps f : Int) : (EdlImport.from_frame fps f).fps = fps := by
  simp only [EdlImport.from_frame]
  split_ifs <;> rfl

/-- The importer's pair round-trips on every integer of magnitude below
2^53, negative ones included, because its as_frame is the plain signed
sum. -/
lemma import_roundtrip (fps f : Int) (hfps : 0 < fps) (hlo : -(2 ^ 53) < f)
    (hhi : f < 2 ^ 53) :
    EdlImport.as_frame (EdlImport.from_frame fps f) = f := by
  rcases lt_or_le f 0 with hneg | hpos
  · rw [import_from_frame_neg_eq fps f hneg]
    have h := import_roundtrip_nonneg fps (-f) hfps (by linarith) (by linarith)
    simp only [EdlImport.as_frame, import_from_frame_fps] at h ⊢
    linarith [h]
  · exact import_roundtrip_nonneg fps f hfps hpos hhi

/-- The frame count at which the importer's float-mediated hour
division first visibly breaks the round trip at fps 25: the exact hour
quotient 2^37 + 89999/90000 lies within half an ulp (2^-16 there) of
2^37 + 1, so the correctly rounded double is 2^37 + 1 and int() keeps
it. -/
def float_divergence_input : Int := 137438953472 * 90000 + 89999

/-- Counterexample to C1: at fps 25 the importer's round trip fails for
this nonnegative frame count — the float-rounded hours field comes out
one too high, and as_frame returns the input plus one hour of frames. -/
theorem c1_counterexample :
    (0 : Int) ≤ float_divergence_input ∧
    ((25 : Int) = 24 ∨ (25 : Int) = 25 ∨ (25 : Int) = 30 ∨ (25 : Int) = 60) ∧
    EdlImport.as_frame (EdlImport.from_frame 25 float_divergence_input) =
      float_divergence_input + 90000 ∧
    EdlImport.as_frame (EdlImport.from_frame 25 float_divergence_input) ≠
      float_divergence_input := by
  refine ⟨by decide, by decide, rfl, by decide⟩

/-- Claim C1 (amended): for every non-negative integer f and every fps
in {24, 25, 30, 60}, the exporter's TimeCode round-trips f through
from_frame and as_frame; the importer's TimeCode does so for every such
f below 2^53, where its float-mediated divisions still floor. -/
theorem c1_from_frame_as_frame_roundtrip (f fps : Int) (hf : 0 ≤ f)
    (hfps : fps = 24 ∨ fps = 25 ∨ fps = 30 ∨ fps = 60) :
    EdlExport.as_frame (EdlExport.from_frame fps f) = f ∧
    (f < 2 ^ 53 → EdlImport.as_frame (EdlImport.from_frame fps f) = f) := by
  have hpos : 0 < fps := by rcases hfps with rfl | rfl | rfl | rfl <;> norm_num
  exact ⟨export_roundtrip_nonneg fps f hpos hf,
    fun hb => import_roundtrip_nonneg fps f hpos hf hb⟩

/-- Witness for C1 at f = 7777, fps = 25. -/
theorem c1_witness :
    (0 : Int) ≤ 7777 ∧
    ((25 : Int) = 24 ∨ (25 : Int) = 25 ∨ (25 : Int) = 30 ∨ (25 : Int) = 60) ∧
    (7777 : Int) < 2 ^ 53 ∧
    EdlExport.as_frame (EdlExport.from_frame 25 7777) = 7777 ∧
    EdlImport.as_frame (EdlImport.from_frame 25 7777) = 7777 :=
  ⟨by decide, by decide, by decide,
   (c1_from_frame_as_frame_roundtrip 7777 25 (by decide) (by decide)).1,
   (c1_from_frame_as_frame_roundtrip 7777 25 (by decide) (by decide)).2 (by decide)⟩

/-- The two from_frame implementations coincide on nonnegative inputs
below 2^53: both reduce to the canonical decomposition there. -/
lemma from_frame_equiv_nonneg (fps f : Int) (hfps : 0 < fps) (hf : 0 ≤ f)
    (hbound : f < 2 ^ 53) :
    EdlExport.from_frame fps f = EdlImport.from_frame fps f := by
  rw [export_from_frame_nonneg fps f hfps hf, import_from_frame_nonneg fps f hfps hf hbound]
  have h60 : (0 : Int) < 60 := by norm_num
  have hM : (0 : Int) < 60 * fps := by positivity
  have hdvd1 : (60 * fps : Int) ∣ 60 * (60 * fps) := ⟨60, by ring⟩
  have hdvd2 : (fps : Int) ∣ 60 * fps := ⟨60, by ring⟩
  simp only [TimeCode.mk.injEq]
  refine ⟨trivial, ?_, ?_, ?_, ?_⟩
  · rw [int_ediv_ediv f hfps h60, int_ediv_ediv f (mul_pos hfps h60) h60,
      show (fps * 60 * 60 : Int) = 60 * (60 * fps) by ring]
  · rw [int_emod_mul_ediv f (60 * fps) 60 hM h60, int_ediv_ediv f hfps h60,
      show (fps * 60 : Int) = 60 * fps by ring]
  · rw [Int.emod_emod_of_dvd f hdvd1, int_emod_mul_ediv f fps 60 hfps h60]
  · rw [Int.emod_emod_of_dvd f hdvd1, Int.emod_emod_of_dvd f hdvd2]

/-- Counterexample to C9: at fps 25 and the divergence frame count, the
exporter's hours field is 2^37 but the importer's float-mediated
division rounds its hours quotient up to 2^37 + 1 — the two
implementations produce different fields. -/
theorem c9_counterexample :
    (EdlExport.from_frame 25 float_divergence_input).hours = 137438953472 ∧
    (EdlImport.from_frame 25 float_divergence_input).hours = 137438953473 ∧
    EdlExport.from_frame 25 float_divergence_input ≠
      EdlImport.from_frame 25 float_divergence_input := by
  refine ⟨rfl, rfl, by decide⟩

/-- Claim C9 (amended): for every integer frame count of magnitude
below 2^53 and every positive integer fps, the exporter's repeated
modulo and integer division and the importer's guarded float-mediated
int(frame / fph) with modulo produce identical hours, minutes, seconds
and frame fields; beyond that magnitude the float rounding makes the
importer diverge. -/
theorem c9_from_frame_implementations_equivalent (fps f : Int) (hfps : 0 < fps)
    (hlo : -(2 ^ 53) < f) (hhi : f < 2 ^ 53) :
    EdlExport.from_frame fps f = EdlImport.from_frame fps f := by
  rcases lt_or_le f 0 with hneg | hpos
  · rw [export_from_frame_neg_eq fps f hneg, import_from_frame_neg_eq fps f hneg,
      from_frame_equiv_nonneg fps (-f) hfps (by linarith) (by linarith)]
  · exact from_frame_equiv_nonneg fps f hfps hpos hhi

/-- Witness for C9 at fps = 25, f = -100. -/
theorem c9_witness :
    (0 : Int) < 25 ∧ -((2 : Int) ^ 53) < -100 ∧ (-100 : Int) < 2 ^ 53 ∧
    EdlExport.from_frame 25 (-100) = EdlImport.from_frame 25 (-100) :=
  ⟨by decide, by decide, by decide,
   c9_from_frame_implementations_equivalent 25 (-100) (by decide) (by decide) (by decide)⟩

/-- The as_frame formula stated by the spec (section 4.1): the absolute
values of the four fields are combined positionally and the result is
negated exactly when the hours field is negative. -/
def spec_as_frame (fps hours minutes seconds frame : Int) : Int :=
  let a := ((pyAbs hours * 60 + pyAbs minutes) * 60 + pyAbs seconds) * fps + pyAbs frame
  if hours < 0 then -a else a

/-- Counterexample to C6: the importer's as_frame is the plain signed
sum without absolute values, so on the timecode (0, 0, -4, 0) at fps 25
(the importer's own from_frame output for -100) it returns -100 while
the claimed formula returns +100. -/
theorem c6_counterexample :
    EdlImport.as_frame ⟨25, 0, 0, -4, 0⟩ = -100 ∧
    spec_as_frame 25 0 0 (-4) 0 = 100 ∧
    EdlImport.as_frame ⟨25, 0, 0, -4, 0⟩ ≠ spec_as_frame 25 0 0 (-4) 0 := by decide

/-- Claim C6 (amended): for every TimeCode tc, the exporter's as_frame
equals ((|hours|*60 + |minutes|)*60 + |seconds|)*fps + |frame|, negated
exactly when hours < 0; the importer's as_frame is instead the plain
signed sum and does not satisfy this formula. -/
theorem c6_as_frame_formula_export (tc : TimeCode) :
    EdlExport.as_frame tc = spec_as_frame tc.fps tc.hours tc.minutes tc.seconds tc.frame := by
  simp only [EdlExport.as_frame, spec_as_frame]
  split_ifs <;> ring

/-- Counterexample to C5: the importer's __str__ does not take absolute
values, so from_frame(-100, 25) prints as 00:00:-4:00, not as the string
of from_frame(100, 25). -/
theorem c5_counterexample :
    EdlImport.toStr (EdlImport.from_frame 25 (-100)) = "00:00:-4:00" ∧
    EdlImport.toStr (EdlImport.from_frame 25 100) = "00:00:04:00" ∧
    EdlImport.toStr (EdlImport.from_frame 25 (-100)) ≠
      EdlImport.toStr (EdlImport.from_frame 25 100) := by decide

/-- Claim C5 (amended): TimeCode.from_frame(-100, 25) yields a timecode
whose four fields are all ≤ 0 for both the exporter and the importer;
the exporter's string form (which prints the absolute value of each
field) equals the string form of from_frame(100, 25), while the
importer's string form prints the fields with their signs, giving
00:00:-4:00. -/
theorem c5_negative_frame_sign_handling :
    ((EdlExport.from_frame 25 (-100)).hours ≤ 0 ∧
     (EdlExport.from_frame 25 (-100)).minutes ≤ 0 ∧
     (EdlExport.from_frame 25 (-100)).seconds ≤ 0 ∧
     (EdlExport.from_frame 25 (-100)).frame ≤ 0) ∧
    ((EdlImport.from_frame 25 (-100)).hours ≤ 0 ∧
     (EdlImport.from_frame 25 (-100)).minutes ≤ 0 ∧
     (EdlImport.from_frame 25 (-100)).seconds ≤ 0 ∧
     (EdlImport.from_frame 25 (-100)).frame ≤ 0) ∧
    EdlExport.toStr (EdlExport.from_frame 25 (-100)) =
      EdlExport.toStr (EdlExport.from_frame 25 100) ∧
    EdlImport.toStr (EdlImport.from_frame 25 (-100)) = "00:00:-4:00" := by decide

/-- The character class kept by sanitize_reel_name: Python's
c.isalnum() or c in an underscore-hyphen pair (ASCII model). -/
def reel_char_ok (c : Char) : Bool := c.isAlphanum || c == '_' || c == '-'

/-- Python str.isdigit (ASCII model): nonempty and all digits. -/
def pyIsdigit (s : String) : Bool := !s.data.isEmpty && s.data.all (·.isDigit)

/-- Python `s or dflt` for strings: the empty string is falsy. -/
def pyOr (s dflt : String) : String := if s = "" then dflt else s

/-- sanitize_reel_name of src/edl_export.py (lines 321-344): strip every
character outside the legal class, then apply the dialect rule.  zpad
models str.zfill on the all-digit strings the CMX340 branch feeds it. -/
def sanitize_reel_name (name : String) (format_type : String) : String :=
  let name1 := String.mk (name.data.filter reel_char_ok)
  if format_type = "CMX340" then
    if pyIsdigit name1 then zpad 3 (String.mk (name1.data.take 3)) else "001"
  else if format_type = "GVG" then
    pyOr (String.mk (name1.data.take 6)) "AX"
  else if format_type = "CMX3600" then
    pyOr (String.mk (name1.data.take 8)) "AX"
  else
    pyOr (String.mk (name1.data.take 8)) "AX"
/-- Appending two strings concatenates their character lists. -/
lemma data_mk_append (a b : List Char) :
    (String.mk a ++ String.mk b).data = a ++ b := rfl

/-- A truncate-or-fallback result stays within the truncation width when
the fallback fits it. -/
lemma pyOr_take_length_le (l : List Char) (n : Nat) (dflt : String)
    (h : dflt.length ≤ n) :
    (pyOr (String.mk (l.take n)) dflt).length ≤ n := by
  unfold pyOr
  split_ifs with hs
  · exact h
  · show (l.take n).length ≤ n
    simp [List.length_take]

/-- Claim C8: sanitize_reel_name first strips every character that is
not alphanumeric, an underscore or a hyphen; for "Cam A/1!" it returns
"CamA1" under CMX 3600 (truncation to 8) and "001" under CMX 340 (the
fallback, since the stripped name is non-numeric); for GVG it truncates
to 6 characters; and every output character is in the legal class. -/
theorem c8_sanitize_reel_name :
    sanitize_reel_name "Cam A/1!" "CMX3600" = "CamA1" ∧
    sanitize_reel_name "Cam A/1!" "CMX340" = "001" ∧
    (∀ name : String, (sanitize_reel_name name "GVG").length ≤ 6) ∧
    (∀ name : String, (sanitize_reel_name name "CMX3600").length ≤ 8) ∧
    (∀ name fmt : String, ∀ c ∈ (sanitize_reel_name name fmt).data,
      reel_char_ok c = true) := by
  refine ⟨by decide, by decide, ?_, ?_, ?_⟩
  · intro name
    unfold sanitize_reel_name
    rw [if_neg (by decide : ¬ ("GVG" : String) = "CMX340"),
      if_pos (rfl : ("GVG" : String) = "GVG")]
    exact pyOr_take_length_le (name.data.filter reel_char_ok) 6 "AX" (by decide)
  · intro name
    unfold sanitize_reel_name
    rw [if_neg (by decide : ¬ ("CMX3600" : String) = "CMX340"),
      if_neg (by decide : ¬ ("CMX3600" : String) = "GVG"),
      if_pos (rfl : ("CMX3600" : String) = "CMX3600")]
    exact pyOr_take_length_le (name.data.filter reel_char_ok) 8 "AX" (by decide)
  · intro name fmt c hc
    have hkeep : ∀ n : Nat, c ∈ (name.data.filter reel_char_ok).take n →
        reel_char_ok c = true := fun n hd =>
      List.of_mem_filter (List.mem_of_mem_take hd)
    have hax : c ∈ ("AX" : String).data → reel_char_ok c = true := fun h =>
      List.all_eq_true.mp (by decide : (("AX" : String).data.all reel_char_ok) = true) c h
    have h001 : c ∈ ("001" : String).data → reel_char_ok c = true := fun h =>
      List.all_eq_true.mp (by decide : (("001" : String).data.all reel_char_ok) = true) c h
    simp only [sanitize_reel_name, pyOr, zpad] at hc
    split_ifs at hc
    · rw [data_mk_append, List.mem_append] at hc
      rcases hc with hz | hk
      · rw [List.eq_of_mem_replicate hz]; decide
      · exact hkeep 3 hk
    · exact h001 hc
    · exact hax hc
    · exact hkeep 6 hc
    · exact hax hc
    · exact hkeep 8 hc
    · exact hax hc
    · exact hkeep 8 hc

/-- Python s[a:b] on a string: characters at indices a to b-1. -/
def pySlice (s : String) (a b : Nat) : String :=
  String.mk ((s.data.drop a).take (b - a))

/-- Python str.strip(): remove leading and trailing whitespace. -/
def pyStrip (s : String) : String :=
  String.mk (((s.data.dropWhile Char.isWhitespace).reverse.dropWhile
    Char.isWhitespace).reverse)

/-- EDLBlock of src/edl_export.py (lines 155-184) with its __init__
defaults.  channels defaults to the empty string here: the Python
default is None, which every writer path overwrites before saving
(formatting None with a string spec would raise a TypeError). -/
structure EDLBlock where
  id : Int := 0
  reel : String := "AX"
  channels : String := ""
  transition : String := "C"
  transDur : String := ""
  srcIn : Option TimeCode := none
  srcOut : Option TimeCode := none
  recIn : Option TimeCode := none
  recOut : Option TimeCode := none
  file : String := ""
  comments : List String := []
deriving DecidableEq, Repr

/-- Python str() applied to a timecode slot of an EDLBlock: the slots
start as None (whose str() is the text None) and otherwise hold an
exporter TimeCode. -/
def strOptTC (t : Option TimeCode) : String :=
  match t with
  | none => "None"
  | some tc => EdlExport.toStr tc

/-- The per-event line of EDLList.save_edl (src/edl_export.py lines
220-241), one fixed template per dialect; the else branch serves both
CMX3600 and OPENSHOT, exactly as in the source. -/
def event_line (format : String) (block : EDLBlock) : String :=
  if format = "GVG" then
    pyFmt04d block.id ++ " " ++ pyLjust 6 block.reel ++ " " ++
    pyLjust 4 block.channels ++ "  " ++ pyLjust 4 block.transition ++ " " ++
    pyRjust 3 block.transDur ++ " " ++
    pyLjust 11 (strOptTC block.srcIn) ++ " " ++ pyLjust 11 (strOptTC block.srcOut) ++ "  " ++
    pyLjust 11 (strOptTC block.recIn) ++ " " ++ pyLjust 11 (strOptTC block.recOut)
  else if format = "CMX340" then
    pyFmt03d block.id ++ "  " ++ pyLjust 3 block.reel ++ "      " ++
    pyLjust 4 block.channels ++ "  " ++ pyLjust 4 block.transition ++ " " ++
    pyRjust 3 block.transDur ++ " " ++
    pyLjust 11 (strOptTC block.srcIn) ++ " " ++ pyLjust 11 (strOptTC block.srcOut) ++ " " ++
    pyLjust 11 (strOptTC block.recIn) ++ " " ++ pyLjust 11 (strOptTC block.recOut)
  else
    pyFmt03d block.id ++ "  " ++ pyLjust 8 block.reel ++ " " ++
    pyLjust 4 block.channels ++ "  " ++ pyLjust 4 block.transition ++ " " ++
    pyRjust 3 block.transDur ++ " " ++
    pyLjust 11 (strOptTC block.srcIn) ++ " " ++ pyLjust 11 (strOptTC block.srcOut) ++ " " ++
    pyLjust 11 (strOptTC block.recIn) ++ " " ++ pyLjust 11 (strOptTC block.recOut)

/-- EDLList of src/edl_export.py (lines 187-201) with its defaults. -/
structure EDLListModel where
  title : String := "Untitled"
  dropframe : Bool := false
  format : String := "CMX3600"
  blocks : List EDLBlock := []

/-- EDLList.save_edl (src/edl_export.py lines 203-257) before the final
newline join.  The Python reads fps from the host render settings
(bpy.context.scene.render); that host value is a parameter here. -/
def save_edl_lines (fps : Int) (edl : EDLListModel) : List String :=
  (if edl.title ≠ "" then
    ["TITLE: " ++ edl.title ++ "  " ++ toString fps ++ " fps"] else []) ++
  ["FCM: " ++ (if edl.dropframe then "DROP FRAME" else "NON-DROP FRAME"), ""] ++
  edl.blocks.flatMap (fun block =>
    [event_line edl.format block] ++
    (if block.file ≠ "" then
       if edl.format = "OPENSHOT" ∨ edl.format = "GVG" then
         ["* FROM CLIP NAME: " ++ block.file]
       else if edl.format = "CMX3600" then
         ["* SOURCE FILE: " ++ block.file]
       else []
     else []) ++
    block.comments ++
    (if block.file ≠ "" ∨ block.comments ≠ [] then [""] else []))

/-- EDLList.save_edl's returned string: the lines joined by newlines. -/
def save_edl (fps : Int) (edl : EDLListModel) : String :=
  String.intercalate "\n" (save_edl_lines fps edl)

/-- The concrete video event of claim C2: id 1, reel AX, fps 25, a cut
on the video channel with a two-second source range placed at the start
of the record timeline. -/
def c2_block : EDLBlock :=
  { id := 1, reel := "AX", channels := "V", transition := "C", transDur := "",
    srcIn := some (EdlExport.from_frame 25 0),
    srcOut := some (EdlExport.from_frame 25 50),
    recIn := some (EdlExport.from_frame 25 0),
    recOut := some (EdlExport.from_frame 25 49),
    file := "", comments := [] }

/-- The C2 event placed in a CMX 3600 EDLList. -/
def c2_edl : EDLListModel :=
  { title := "demo", dropframe := false, format := "CMX3600", blocks := [c2_block] }

/-- Counterexample to C2: the CMX 3600 event line produced by the
writer is 76 characters long, not 77.  (The fixed-width parse path sees
77 because readlines keeps the trailing newline.) -/
theorem c2_counterexample :
    (event_line "CMX3600" c2_block).length = 76 ∧
    (event_line "CMX3600" c2_block).length ≠ 77 := by decide

/-- Claim C2 (amended): writing one video event with id=1, reel AX,
fps=25 in the CMX 3600 dialect produces a 76-character event line (77
with the newline added when the file is written and kept by readlines);
the id occupies [0:3], the reel field starts at column 5 (so [5:12]
reads it for reels of at most 7 characters), the edit-type is [14:18],
the transition field starts at 20 (so [20:22] reads short codes), the
duration slice [23:25] of this line is blank (a cut has no duration;
the writer places the duration field at [25:28]), and the four
timecodes sit exactly at [29:40], [41:52], [53:64], [65:76]. -/
theorem c2_cmx3600_write_shape :
    (save_edl_lines 25 c2_edl)[3]? = some (event_line "CMX3600" c2_block) ∧
    (event_line "CMX3600" c2_block).length = 76 ∧
    pySlice (event_line "CMX3600" c2_block) 0 3 = "001" ∧
    pyStrip (pySlice (event_line "CMX3600" c2_block) 5 12) = "AX" ∧
    pyStrip (pySlice (event_line "CMX3600" c2_block) 14 18) = "V" ∧
    pySlice (event_line "CMX3600" c2_block) 20 22 = "C " ∧
    pySlice (event_line "CMX3600" c2_block) 23 25 = "  " ∧
    pySlice (event_line "CMX3600" c2_block) 29 40 = "00:00:00:00" ∧
    pySlice (event_line "CMX3600" c2_block) 41 52 = "00:00:02:00" ∧
    pySlice (event_line "CMX3600" c2_block) 53 64 = "00:00:00:00" ∧
    pySlice (event_line "CMX3600" c2_block) 65 76 = "00:00:01:24" := by decide

/-- The Python exceptions this code can raise. -/
inductive PyErr where
  | indexError
  | valueError
  | attributeError (slot : String)
  | typeError
  | nameError (name : String)
deriving DecidableEq, Repr

/-- The message text of a Python exception as it appears in the
diagnostics this code prints. -/
def pyErrMsg : PyErr → String
  | .indexError => "list index out of range"
  | .valueError => "invalid literal"
  | .attributeError s => "AttributeError: " ++ s
  | .typeError => "TypeError"
  | .nameError s => "NameError: " ++ s

/-- Python str.lower (ASCII model). -/
def toLowerStr (s : String) : String := String.mk (s.data.map Char.toLower)

/-- Python str.endswith. -/
def endsWithStr (s suffixStr : String) : Bool := suffixStr.data.isSuffixOf s.data

/-- Python `c in s` for a single character. -/
def containsChar (s : String) (c : Char) : Bool := s.data.contains c

/-- Python str.startswith. -/
def pyStartsWith (s prefixStr : String) : Bool := prefixStr.data.isPrefixOf s.data

/-- Split a character list at every character matching p, keeping empty
groups, returned as first group plus remaining groups. -/
def splitGroups (p : Char → Bool) : List Char → List Char × List (List Char)
  | [] => ([], [])
  | c :: cs =>
    let r := splitGroups p cs
    if p c then ([], r.1 :: r.2) else (c :: r.1, r.2)

/-- All groups produced by splitting at characters matching p (always
nonempty, like Python's split with an explicit separator). -/
def splitByPred (p : Char → Bool) (l : List Char) : List (List Char) :=
  (splitGroups p l).1 :: (splitGroups p l).2

/-- Python str.split() with no argument: split on whitespace runs and
drop empty groups. -/
def pySplitWs (s : String) : List String :=
  ((splitByPred (fun c => c.isWhitespace) s.data).filter (fun g => !g.isEmpty)).map String.mk

/-- Python str.split(sep) for a one-character separator: empty groups
are kept. -/
def pySplitOnChar (c : Char) (s : String) : List String :=
  (splitByPred (fun d => d == c) s.data).map String.mk

/-- Python " ".join. -/
def pyJoinSpace (xs : List String) : String := String.intercalate " " xs

/-- Everything after the first colon: Python s.split(":", 1)[1] for a
string known to contain a colon. -/
def splitOnceColonTail (s : String) : String :=
  String.mk ((s.data.dropWhile (fun c => !(c == ':'))).drop 1)

/-- Python `needle in hay` substring membership. -/
def listContainsSub (needle : List Char) : List Char → Bool
  | [] => needle.isEmpty
  | c :: rest => needle.isPrefixOf (c :: rest) || listContainsSub needle rest

/-- Python substring membership on strings. -/
def containsSub (hay needle : String) : Bool := listContainsSub needle.data hay.data

/-- Decimal value of a digit list. -/
def digitsToNat (l : List Char) : Nat :=
  l.foldl (fun acc c => acc * 10 + (c.toNat - '0'.toNat)) 0

/-- Python int(text) on a string: optional surrounding whitespace,
optional sign, decimal digits; anything else raises ValueError. -/
def pyIntOfString (s : String) : Except PyErr Int :=
  let t := (pyStrip s).data
  match t with
  | '-' :: rest =>
    if !rest.isEmpty && rest.all (·.isDigit) then .ok (-(digitsToNat rest : Int))
    else .error .valueError
  | '+' :: rest =>
    if !rest.isEmpty && rest.all (·.isDigit) then .ok (digitsToNat rest : Int)
    else .error .valueError
  | l =>
    if !l.isEmpty && l.all (·.isDigit) then .ok (digitsToNat l : Int)
    else .error .valueError

/-- Python float(text), restricted to the decimal shapes a timecode
token can have: optional sign, digits with at most one point, kept as
an exact rational.  This idealizes Python in two latent ways that no
theorem below exercises: the exponent, infinity and nan forms float()
also accepts raise here, and the binary64 rounding of the parsed value
(and of the subsequent multiply by fps) is not applied. -/
def pyFloatOfString (s : String) : Except PyErr Rat :=
  let t := (pyStrip s).data
  let signBody : Int × List Char :=
    match t with
    | '-' :: rest => (-1, rest)
    | '+' :: rest => (1, rest)
    | l => (1, l)
  match splitByPred (fun c => c == '.') signBody.2 with
  | [ip] =>
    if !ip.isEmpty && ip.all (·.isDigit) then
      .ok (signBody.1 * (digitsToNat ip : Rat))
    else .error .valueError
  | [ip, fp] =>
    if (!ip.isEmpty || !fp.isEmpty) && ip.all (·.isDigit) && fp.all (·.isDigit) then
      .ok (signBody.1 * ((digitsToNat ip : Rat) + (digitsToNat fp : Rat) / ((10 : Rat) ^ fp.length)))
    else .error .valueError
  | _ => .error .valueError

/-- Python int() applied to a float value: truncation toward zero. -/
def pyTrunc (q : Rat) : Int := q.num.tdiv q.den

/-- The mutable slot state of a TimeCode under construction: __slots__
that were never assigned read as AttributeError, modelled by none. -/
structure TCState where
  fps : Int
  hours : Option Int := none
  minutes : Option Int := none
  seconds : Option Int := none
  frame : Option Int := none
deriving DecidableEq, Repr

/-- The fully-assigned slot state left by a from_frame call. -/
def stateOfTC (tc : TimeCode) : TCState :=
  ⟨tc.fps, some tc.hours, some tc.minutes, some tc.seconds, some tc.frame⟩

/-- List indexing with Python's IndexError. -/
def listIdx (l : List α) (i : Nat) : Except PyErr α :=
  match l[i]? with
  | some a => .ok a
  | none => .error .indexError

/-- TimeCode.from_string, identical in src/edl_export.py (lines 71-96)
and src/edl_import.py (lines 118-144); the module's own from_frame is
passed in because the two modules implement it differently.  Returns
the updated slot state, the exception that escaped (if any), and the
printed diagnostics.  The final branch prints an error and returns with
the slots still unassigned. -/
def fromStringGeneric (ffn : Int → Int → TimeCode) (st : TCState) (text : String) :
    TCState × Option PyErr × List String :=
  if endsWithStr (toLowerStr text) "mps" then
    match pyFloatOfString (pySlice text 0 (text.length - 3)) with
    | .error e => (st, some e, [])
    | .ok q => (stateOfTC (ffn st.fps (pyTrunc (q * (st.fps : Rat)))), none, [])
  else if endsWithStr (toLowerStr text) "s" then
    match pyFloatOfString (pySlice text 0 (text.length - 1)) with
    | .error e => (st, some e, [])
    | .ok q => (stateOfTC (ffn st.fps (pyTrunc (q * (st.fps : Rat)))), none, [])
  else if pyIsdigit text then
    (stateOfTC (ffn st.fps (digitsToNat text.data : Int)), none, [])
  else if containsChar text ':' then
    let cleaned := String.mk (text.data.map (fun c =>
      if c == ';' || c == ',' || c == '.' then ':' else c))
    let parts := pySplitOnChar ':' cleaned
    match (listIdx parts 0).bind pyIntOfString with
    | .error e => (st, some e, [])
    | .ok h =>
      let st := { st with hours := some h }
      match (listIdx parts 1).bind pyIntOfString with
      | .error e => (st, some e, [])
      | .ok m =>
        let st := { st with minutes := some m }
        match (listIdx parts 2).bind pyIntOfString with
        | .error e => (st, some e, [])
        | .ok sec =>
          let st := { st with seconds := some sec }
          match (listIdx parts 3).bind pyIntOfString with
          | .error e => (st, some e, [])
          | .ok fr => ({ st with frame := some fr }, none, [])
  else
    (st, none, ["ERROR: Could not convert to timecode: " ++ text])

namespace EdlExport

/-- TimeCode.as_frame evaluated on the slot state: the exporter's body
reads abs(self.hours) first, so an unassigned hours slot raises first. -/
def st_as_frame (st : TCState) : Except PyErr Int :=
  match st.hours with
  | none => .error (.attributeError "hours")
  | some h =>
    match st.minutes with
    | none => .error (.attributeError "minutes")
    | some m =>
      match st.seconds with
      | none => .error (.attributeError "seconds")
      | some s =>
        match st.frame with
        | none => .error (.attributeError "frame")
        | some fr => .ok (as_frame ⟨st.fps, h, m, s, fr⟩)

/-- TimeCode.__init__ of src/edl_export.py (lines 62-69) on string
data: from_string, then renormalize through as_frame and from_frame.
Returns the constructed value or the escaping exception, plus the
printed diagnostics. -/
def timecode_init (data : String) (fps : Int) : Except PyErr TimeCode × List String :=
  match fromStringGeneric from_frame ⟨fps, none, none, none, none⟩ data with
  | (_, some e, logs) => (.error e, logs)
  | (st, none, logs) =>
    match st_as_frame st with
    | .error e => (.error e, logs)
    | .ok f => (.ok (from_frame fps f), logs)

end EdlExport

namespace EdlImport

/-- TimeCode.as_frame evaluated on the slot state: the importer's body
reads self.frame first, so an unassigned frame slot raises first. -/
def st_as_frame (st : TCState) : Except PyErr Int :=
  match st.frame with
  | none => .error (.attributeError "frame")
  | some fr =>
    match st.seconds with
    | none => .error (.attributeError "seconds")
    | some s =>
      match st.minutes with
      | none => .error (.attributeError "minutes")
      | some m =>
        match st.hours with
        | none => .error (.attributeError "hours")
        | some h => .ok (as_frame ⟨st.fps, h, m, s, fr⟩)

/-- TimeCode.__init__ of src/edl_import.py (lines 109-116) on string
data. -/
def timecode_init (data : String) (fps : Int) : Except PyErr TimeCode × List String :=
  match fromStringGeneric from_frame ⟨fps, none, none, none, none⟩ data with
  | (_, some e, logs) => (.error e, logs)
  | (st, none, logs) =>
    match st_as_frame st with
    | .error e => (.error e, logs)
    | .ok f => (.ok (from_frame fps f), logs)

end EdlImport

/-- Claim C3 (code behavior at the failing input): an input string that
matches none of the accepted shapes does print the diagnostic, but the
fallback branch leaves the four __slots__ unassigned, so the
constructor's renormalization (as_frame) raises AttributeError — an
exception escapes both constructors instead of a zeroed timecode. -/
theorem c3_unparseable_timecode_raises :
    EdlExport.timecode_init "@@@" 25 =
      (Except.error (PyErr.attributeError "hours"),
        ["ERROR: Could not convert to timecode: @@@"]) ∧
    EdlImport.timecode_init "@@@" 25 =
      (Except.error (PyErr.attributeError "frame"),
        ["ERROR: Could not convert to timecode: @@@"]) := ⟨rfl, rfl⟩

namespace EdlImport

/-- Transition type constants of src/edl_import.py (lines 48-54). -/
def TRANSITION_CUT : Int := 0
def TRANSITION_DISSOLVE : Int := 1
def TRANSITION_EFFECT : Int := 2
def TRANSITION_FADEIN : Int := 3
def TRANSITION_FADEOUT : Int := 4
def TRANSITION_WIPE : Int := 5
def TRANSITION_KEY : Int := 6

/-- TRANSITION_DICT of src/edl_import.py (lines 56-64). -/
def TRANSITION_DICT (s : String) : Option Int :=
  if s = "c" then some TRANSITION_CUT
  else if s = "d" then some TRANSITION_DISSOLVE
  else if s = "e" then some TRANSITION_EFFECT
  else if s = "fi" then some TRANSITION_FADEIN
  else if s = "fo" then some TRANSITION_FADEOUT
  else if s = "w" then some TRANSITION_WIPE
  else if s = "k" then some TRANSITION_KEY
  else none

/-- Edit type bit flags of src/edl_import.py (lines 67-70). -/
def EDIT_VIDEO : Int := 2
def EDIT_AUDIO : Int := 4
def EDIT_AUDIO_STEREO : Int := 8
def EDIT_VIDEO_AUDIO : Int := 16

/-- EDIT_DICT of src/edl_import.py (lines 72-79). -/
def EDIT_DICT (s : String) : Option Int :=
  if s = "none" then some 0
  else if s = "v" then some EDIT_VIDEO
  else if s = "a" then some EDIT_AUDIO
  else if s = "aa" then some EDIT_AUDIO_STEREO
  else if s = "va" then some EDIT_VIDEO_AUDIO
  else if s = "b" then some EDIT_VIDEO_AUDIO
  else none

/-- Wipe and key constants of src/edl_import.py (lines 82-88). -/
def WIPE_0 : Int := 0
def KEY_BG : Int := 0
def KEY_IN : Int := 1
def KEY_OUT : Int := 2

/-- BLACK_ID of src/edl_import.py (line 91). -/
def BLACK_ID : List String := ["bw", "bl", "blk", "black"]

/-- EditDecision of src/edl_import.py (lines 219-265) with its __init__
defaults.  transition_duration starts as the int 0 in Python and is
replaced by a TimeCode when a duration token is parsed; none models the
initial 0.  The m2 slot is always None and is omitted.  custom_data
holds the ("marker", name) pairs parse attaches (the host later stores
strip objects there, which are out of scope). -/
structure EditDecision where
  number : Int := -1
  reel : String := ""
  transition_duration : Option TimeCode := none
  edit_type : Int := 0
  transition_type : Int := 0
  wipe_type : Int := 0
  key_type : Int := 1
  key_fade : Bool := false
  srcIn : Option TimeCode := none
  srcOut : Option TimeCode := none
  recIn : Option TimeCode := none
  recOut : Option TimeCode := none
  filename : String := ""
  custom_data : List (String × String) := []
deriving DecidableEq, Repr

/-- Python's bitwise or on the nonnegative edit-type flags (every
EDIT_DICT value is a small nonnegative constant). -/
def pyOrInt (a b : Int) : Int := (a.toNat ||| b.toNat : Nat)

/-- The edit-type token fold of EditDecision.read (lines 305-311):
split on "/", strip digits, look up, or the flags together. -/
def computeEditType (tok : String) : Int :=
  (pySplitOnChar '/' (toLowerStr tok)).foldl (fun acc part =>
    let clean := String.mk (part.data.filter (fun c => !c.isDigit))
    match EDIT_DICT clean with
    | some v => pyOrInt acc v
    | none => acc) 0

/-- The four trailing timecode reads of EditDecision.read (lines
350-362): each is guarded by index < len(line) and advances the index. -/
def readTimecodes (ed : EditDecision) (toks : List String) (index : Nat) (fps : Int)
    (logs : List String) : EditDecision × List String × Option PyErr :=
  if index < toks.length then
    match timecode_init (toks.getD index "") fps with
    | (.error e, l1) => (ed, logs ++ l1, some e)
    | (.ok tc, l1) =>
      let ed := { ed with srcIn := some tc }
      let logs := logs ++ l1
      if index + 1 < toks.length then
        match timecode_init (toks.getD (index + 1) "") fps with
        | (.error e, l2) => (ed, logs ++ l2, some e)
        | (.ok tc2, l2) =>
          let ed := { ed with srcOut := some tc2 }
          let logs := logs ++ l2
          if index + 2 < toks.length then
            match timecode_init (toks.getD (index + 2) "") fps with
            | (.error e, l3) => (ed, logs ++ l3, some e)
            | (.ok tc3, l3) =>
              let ed := { ed with recIn := some tc3 }
              let logs := logs ++ l3
              if index + 3 < toks.length then
                match timecode_init (toks.getD (index + 3) "") fps with
                | (.error e, l4) => (ed, logs ++ l4, some e)
                | (.ok tc4, l4) =>
                  ({ ed with recOut := some tc4 }, logs ++ l4, none)
              else (ed, logs, none)
          else (ed, logs, none)
      else (ed, logs, none)
  else (ed, logs, none)

/-- EditDecision.read of src/edl_import.py (lines 267-362): tokenize
(fixed 77-column slices or whitespace split), then walk the tokens.
Returns the partially updated record (Python mutates self, so fields
assigned before an exception persist), the printed diagnostics, and the
exception that escaped, if any. -/
def EditDecision.read (ed : EditDecision) (line : String) (fps : Int) :
    EditDecision × List String × Option PyErr :=
  let toks : List String :=
    if line.length = 77 then
      [pyStrip (pySlice line 0 3), pyStrip (pySlice line 5 12)] ++
      (if pyStrip (pySlice line 14 18) ≠ "" then [pyStrip (pySlice line 14 18)] else []) ++
      (if pyStrip (pySlice line 20 22) ≠ "" then [pyStrip (pySlice line 20 22)] else []) ++
      (if pyStrip (pySlice line 23 25) ≠ "" then [pyStrip (pySlice line 23 25)] else []) ++
      (if pyStrip (pySlice line 27 28) ≠ "" then [pyStrip (pySlice line 27 28)] else []) ++
      [pyStrip (pySlice line 29 40), pyStrip (pySlice line 41 52),
        pyStrip (pySlice line 53 64), pyStrip (pySlice line 65 76)]
    else pySplitWs line
  match (listIdx toks 0).bind pyIntOfString with
  | .error e => (ed, [], some e)
  | .ok num =>
    let ed := { ed with number := num }
    match listIdx toks 1 with
    | .error e => (ed, [], some e)
    | .ok reelTok =>
      let ed := { ed with reel := reelTok }
      match listIdx toks 2 with
      | .error e => ({ ed with edit_type := 0 }, [], some e)
      | .ok editTok =>
        let ed := { ed with edit_type := computeEditType editTok }
        match listIdx toks 3 with
        | .error e => (ed, [], some e)
        | .ok transTok =>
          let trans_str := toLowerStr transTok
          let tx_name := String.mk (trans_str.data.filter (fun c => !c.isDigit))
          let ed := { ed with transition_type := (TRANSITION_DICT tx_name).getD TRANSITION_CUT }
          let ed :=
            if ed.transition_type = TRANSITION_WIPE then
              let tx_num := String.mk (trans_str.data.filter (fun c => c.isDigit))
              { ed with wipe_type := if tx_num = "" then 0 else (digitsToNat tx_num.data : Int) }
            else ed
          let keyRes : EditDecision × Nat :=
            if ed.transition_type = TRANSITION_KEY then
              if 3 + 1 < toks.length then
                let val := toLowerStr (toks.getD 4 "")
                let first : EditDecision × Nat :=
                  if val = "b" then ({ ed with key_type := KEY_BG }, 4)
                  else if val = "o" then ({ ed with key_type := KEY_OUT }, 4)
                  else ({ ed with key_type := KEY_IN }, 3)
                if first.2 + 1 < toks.length ∧ toLowerStr (toks.getD (first.2 + 1) "") = "(f)" then
                  ({ first.1 with key_fade := true }, first.2 + 1)
                else first
              else (ed, 3)
            else (ed, 3)
          let ed := keyRes.1
          let index := keyRes.2 + 1
          if [TRANSITION_DISSOLVE, TRANSITION_EFFECT, TRANSITION_FADEIN,
              TRANSITION_FADEOUT, TRANSITION_WIPE].contains ed.transition_type ∧
              index < toks.length then
            match timecode_init (toks.getD index "") fps with
            | (.error e, l1) => (ed, l1, some e)
            | (.ok tc, l1) =>
              readTimecodes { ed with transition_duration := some tc } toks (index + 1) fps l1
          else
            readTimecodes ed toks index fps []

/-- EditDecision.__init__ of src/edl_import.py (lines 244-265): run
read and swallow any exception, printing a diagnostic — the record is
usable (with whatever fields were assigned) either way. -/
def EditDecision.init (text : String) (fps : Int) : EditDecision × List String :=
  match EditDecision.read {} text fps with
  | (ed, logs, none) => (ed, logs)
  | (ed, logs, some e) => (ed, logs ++ ["Error parsing edit line: " ++ pyErrMsg e])

end EdlImport

namespace EdlImport

/-- EditList.detect_format of src/edl_import.py (lines 397-429): scan
for the first non-comment, non-header line; a 4-digit leading id means
GVG, a 3-digit id with a short numeric reel means CMX340, otherwise
CMX3600; any other shape stops the scan and falls back to CMX3600. -/
def detect_format : List String → String
  | [] => "CMX3600"
  | rawline :: rest =>
    let line := pyStrip rawline
    if line = "" ∨ pyStartsWith line "*" ∨ pyStartsWith line "#" ∨
        pyStartsWith line "TITLE:" ∨ pyStartsWith line "FCM:" then
      detect_format rest
    else
      match pySplitWs line with
      | [] => "CMX3600"
      | p0 :: rest0 =>
        if pyIsdigit p0 then
          if p0.length = 4 then "GVG"
          else if p0.length = 3 then
            match rest0 with
            | reel :: _ =>
              if reel.length ≤ 3 ∧ pyIsdigit reel then "CMX340" else "CMX3600"
            | [] => "CMX3600"
          else "CMX3600"
        else detect_format rest

/-- The result of EditList.parse: the success flag it returns, the
fields it mutates, and the error diagnostics it (or the EditDecision
constructor) prints. -/
structure ParseResult where
  success : Bool
  edits : List EditDecision
  title : String
  detected_format : String
  diagnostics : List String
deriving DecidableEq, Repr

/-- The line loop of EditList.parse (src/edl_import.py lines 454-494).
Lines are taken as readlines returns them (trailing newline kept, which
the 77-column check relies on).  A digit-led line always appends an
EditDecision: the constructor catches every read error itself, so the
skip branch of parse's own try/except is unreachable.  The lookahead at
the raw next line attaches SOURCE FILE / FROM CLIP NAME / MARKER
comments to the event just appended. -/
def parse_lines (fps : Int) : List String → String → List EditDecision → List String →
    String × List EditDecision × List String
  | [], title, edits, logs => (title, edits, logs)
  | rawline :: rest, title, edits, logs =>
    let line := if rawline.length = 77 then rawline else pyJoinSpace (pySplitWs rawline)
    if line = "" ∨ pyStartsWith line "*" ∨ pyStartsWith line "#" then
      parse_lines fps rest title edits logs
    else if pyStartsWith line "TITLE:" then
      parse_lines fps rest (pyJoinSpace ((pySplitWs line).drop 1)) edits logs
    else if pyStartsWith line "FCM:" ∨ pyStartsWith line "DROP FRAME" ∨
        pyStartsWith line "NON-DROP FRAME" then
      parse_lines fps rest title edits logs
    else
      match pySplitWs line with
      | [] => parse_lines fps rest title edits logs
      | p0 :: _ =>
        if pyIsdigit p0 then
          let edRes := EditDecision.init line fps
          let ed :=
            match rest with
            | [] => edRes.1
            | next :: _ =>
              let next_line := pyStrip next
              if pyStartsWith next_line "*" then
                if containsSub next_line "SOURCE FILE:" ∨
                    containsSub next_line "FROM CLIP NAME:" then
                  { edRes.1 with reel := pyStrip (splitOnceColonTail next_line) }
                else if containsSub next_line "MARKER:" then
                  { edRes.1 with custom_data := edRes.1.custom_data ++
                      [("marker", pyStrip (splitOnceColonTail next_line))] }
                else edRes.1
              else edRes.1
          parse_lines fps rest title (edits ++ [ed]) (logs ++ edRes.2)
        else
          parse_lines fps rest title edits logs

/-- EditList.parse of src/edl_import.py (lines 431-501), on the list of
lines of an already-opened file (opening the file is host I/O).  It
fails only when no event at all was parsed. -/
def parse (file_lines : List String) (fps : Int) : ParseResult :=
  let fmt := detect_format file_lines
  let res := parse_lines fps file_lines "" [] []
  if res.2.1.length = 0 then
    { success := false, edits := res.2.1, title := res.1, detected_format := fmt,
      diagnostics := res.2.2 ++ ["No valid events found in EDL"] }
  else
    { success := true, edits := res.2.1, title := res.1, detected_format := fmt,
      diagnostics := res.2.2 }

end EdlImport

/-- The three-line file of claim C4: a malformed event line (a bare
digit token) between two well-formed event lines. -/
def c4_file_lines : List String :=
  ["1 AX V C 100 200 300 400\n", "2\n", "3 AX V C 100 200 300 400\n"]

/-- Claim C4 (code behavior at the failing input): parse succeeds but
yields 3 events, not 2.  The malformed line "2" is still appended as a
partially initialized event (number 2, everything else default),
because EditDecision.__init__ catches the IndexError itself and prints
the diagnostic; parse's own skip-with-diagnostic branch never runs. -/
theorem c4_malformed_line_is_appended :
    (EdlImport.parse c4_file_lines 25).success = true ∧
    (EdlImport.parse c4_file_lines 25).edits.length = 3 ∧
    (EdlImport.parse c4_file_lines 25).diagnostics =
      ["Error parsing edit line: list index out of range"] ∧
    ((EdlImport.parse c4_file_lines 25).edits.getD 1 {}).number = 2 ∧
    ((EdlImport.parse c4_file_lines 25).edits.getD 1 {}).reel = "" := by
  refine ⟨rfl, rfl, rfl, rfl, rfl⟩

namespace EdlImport

/-- Python int() applied to a timecode slot: TimeCode.__int__ is
as_frame; an unassigned (None) slot raises TypeError. -/
def intOfOptTC : Option TimeCode → Except PyErr Int
  | none => .error .typeError
  | some tc => .ok (as_frame tc)

/-- The loop of EditList.overlap_test (src/edl_import.py lines
526-543) over the events stored before the event under test: four
strict containment checks in both directions, early true. -/
def overlap_loop (recIn recOut : Int) : List EditDecision → Except PyErr Bool
  | [] => .ok false
  | e :: rest =>
    match intOfOptTC e.recIn with
    | .error err => .error err
    | .ok a =>
      match intOfOptTC e.recOut with
      | .error err => .error err
      | .ok b =>
        if (a < recIn ∧ recIn < b) ∨ (a < recOut ∧ recOut < b) ∨
            (recIn < a ∧ a < recOut) ∨ (recIn < b ∧ b < recOut) then .ok true
        else overlap_loop recIn recOut rest

/-- EditList.overlap_test of src/edl_import.py (lines 514-543).  The
Python iterates self.edits and breaks at the identity of edit_test; the
model receives the prefix of the edit list stored before that event. -/
def overlap_test (earlier : List EditDecision) (edit_test : EditDecision) :
    Except PyErr Bool :=
  match intOfOptTC edit_test.recIn with
  | .error e => .error e
  | .ok recIn =>
    match intOfOptTC edit_test.recOut with
    | .error e => .error e
    | .ok recOut => overlap_loop recIn recOut earlier

end EdlImport

/-- An EditDecision carrying only a record range, at 25 fps, as the
overlap examples of the spec use: the whole count is stored in the
frame field, so the timecode's as_frame is exactly the given integer —
overlap_test reads timecodes only through as_frame (int()). -/
def mkRecEd (recIn recOut : Int) : EdlImport.EditDecision :=
  { recIn := some ⟨25, 0, 0, 0, recIn⟩,
    recOut := some ⟨25, 0, 0, 0, recOut⟩ }

/-- The record timecodes built by mkRecEd convert back to the exact
integer they carry. -/
lemma mkRecEd_int (x : Int) :
    EdlImport.as_frame ⟨25, 0, 0, 0, x⟩ = x := by
  simp [EdlImport.as_frame]

/-- Counterexample to C7: two events with the identical record range
[0,100) overlap in the interior (their common interior is nonempty),
yet overlap_test reports false — all four strict checks fail when both
endpoints coincide. -/
theorem c7_counterexample :
    EdlImport.overlap_test [mkRecEd 0 100] (mkRecEd 0 100) = Except.ok false ∧
    (max (0 : Int) 0 < min 100 100) := ⟨rfl, by decide⟩

/-- Claim C7 (amended): for well-formed events (record-in strictly
before record-out), overlap_test reports true for the event under test
against the events stored before it exactly when some earlier event's
record interval overlaps it in the interior AND is not identical to it:
[0,100) vs [50,150) is reported, edge-touching [0,100) vs [100,200) is
not, nested non-identical intervals are reported, but the identical
interval is missed. -/
theorem c7_overlap_characterization (prev : List (Int × Int)) (tIn tOut : Int)
    (hprev : ∀ p ∈ prev, p.1 < p.2) (ht : tIn < tOut) :
    (EdlImport.overlap_test (prev.map fun p => mkRecEd p.1 p.2) (mkRecEd tIn tOut) =
        Except.ok true) ↔
      ∃ p ∈ prev, max p.1 tIn < min p.2 tOut ∧ ¬(p.1 = tIn ∧ p.2 = tOut) := by
  unfold EdlImport.overlap_test
  simp only [mkRecEd, EdlImport.intOfOptTC, mkRecEd_int]
  induction prev with
  | nil => simp [EdlImport.overlap_loop]
  | cons p ps ih =>
    have hp : p.1 < p.2 := hprev p (List.mem_cons_self p ps)
    have hps : ∀ q ∈ ps, q.1 < q.2 := fun q hq => hprev q (List.mem_cons_of_mem _ hq)
    simp only [List.map_cons, EdlImport.overlap_loop, EdlImport.intOfOptTC, mkRecEd_int]
    by_cases hcond : (p.1 < tIn ∧ tIn < p.2) ∨ (p.1 < tOut ∧ tOut < p.2) ∨
        (tIn < p.1 ∧ p.1 < tOut) ∨ (tIn < p.2 ∧ p.2 < tOut)
    · rw [if_pos hcond]
      constructor
      · intro _
        exact ⟨p, List.mem_cons_self p ps, by omega, by omega⟩
      · intro _
        rfl
    · rw [if_neg hcond, ih hps]
      constructor
      · rintro ⟨q, hq, h1, h2⟩
        exact ⟨q, List.mem_cons_of_mem _ hq, h1, h2⟩
      · rintro ⟨q, hq, h1, h2⟩
        rcases List.mem_cons.mp hq with rfl | hq'
        · exact absurd trivial (by omega)
        · exact ⟨q, hq', h1, h2⟩

/-- Witness for C7: [0,100) against [50,150) is reported overlapping. -/
theorem c7_witness :
    EdlImport.overlap_test (List.map (fun p => mkRecEd p.1 p.2) [((0 : Int), (100 : Int))])
      (mkRecEd 50 150) = Except.ok true :=
  (c7_overlap_characterization [(0, 100)] 50 150 (by decide) (by decide)).mpr
    ⟨(0, 100), by decide, by decide, by decide⟩

namespace EdlExport

/-- A Blender VSE strip as the exporter reads it: the host attributes
the CMX 3600 video path of write_edl consults.  blend_alpha_lt_one
models the float comparison blend_alpha < 1.0; metadata_comments models
the get_strip_metadata output, which is derived from float-valued
transform/crop/opacity host attributes. -/
structure Strip where
  type : String
  channel : Int := 1
  filepath : String := ""
  directory : String := ""
  elements : List String := []
  frame_final_start : Int
  frame_final_end : Int
  frame_final_duration : Int
  frame_offset_start : Int := 0
  blend_type : String := "REPLACE"
  blend_alpha_lt_one : Bool := false
  metadata_comments : List String := []
deriving DecidableEq, Repr

/-- detect_transition_type of src/edl_export.py (lines 347-367). -/
def detect_transition_type (strip : Strip) : String × Int :=
  if strip.type = "CROSS" ∨ strip.type = "GAMMA_CROSS" then
    ("D", strip.frame_final_duration)
  else if (strip.blend_type = "ALPHA_OVER" ∨ strip.blend_type = "CROSS") ∧
      strip.blend_alpha_lt_one then
    ("D", 0)
  else ("C", 0)

/-- get_markers_at_frame of src/edl_export.py (lines 308-318), over the
scene's (frame, name) marker list. -/
def get_markers_at_frame (markers : List (Int × String)) (frame : Int) : List String :=
  (markers.filter (fun m => m.1 == frame)).map (fun m => m.2)

/-- bpy.path.basename: the final path component. -/
def basename (p : String) : String :=
  String.mk ((p.data.reverse.takeWhile (fun c => !(c == '/') && !(c == '\\'))).reverse)

/-- create_edl_block of src/edl_export.py (lines 397-446). -/
def create_edl_block (strip : Strip) (event_id : Int) (fps : Int)
    (channel_label : String) (filepath : String) (markers : List (Int × String))
    (export_markers export_metadata : Bool) : EDLBlock :=
  let trans := detect_transition_type strip
  { id := event_id, reel := "AX", channels := channel_label,
    transition := trans.1,
    transDur := if trans.2 > 0 then pyFmt03d trans.2 else "",
    srcIn := some (from_frame fps strip.frame_offset_start),
    srcOut := some (from_frame fps (strip.frame_offset_start + strip.frame_final_duration)),
    recIn := some (from_frame fps strip.frame_final_start),
    recOut := some (from_frame fps (strip.frame_final_end - 1)),
    file := basename filepath,
    comments :=
      (if export_markers then
        (get_markers_at_frame markers strip.frame_final_start).map
          (fun m => "* MARKER: " ++ m)
       else []) ++
      (if export_metadata then strip.metadata_comments else []) }

/-- create_gap_block of src/edl_export.py (lines 449-461). -/
def create_gap_block (event_id : Int) (fps : Int) (start_frame end_frame : Int)
    (channel_label : String) : EDLBlock :=
  { id := event_id, reel := "BL", channels := channel_label,
    srcIn := some (from_frame fps 0),
    srcOut := some (from_frame fps (end_frame - start_frame)),
    recIn := some (from_frame fps start_frame),
    recOut := some (from_frame fps (end_frame - 1)),
    comments := ["* GAP/BLACK"] }

/-- The video-channel loop of write_edl's CMX3600 branch
(src/edl_export.py lines 585-597).  The source indents the statement
assigning the local variable filepath inside the gap-insertion if
(line 592), so the assignment runs only on iterations that insert a
gap; reading it with no binding yet raises NameError, and otherwise the
previous iteration's value is read.  The loop state carries that local
as an Option. -/
def write_edl_cmx3600_video_loop (fps : Int) (markers : List (Int × String))
    (export_markers export_metadata : Bool) :
    List Strip → List EDLBlock → Int → Int → Option String →
    Except PyErr (List EDLBlock × Int)
  | [], blocks, event_id, _, _ => .ok (blocks, event_id)
  | strip :: rest, blocks, event_id, last_end, filepath? =>
    let needGap : Bool := decide (strip.frame_final_start > last_end)
    let blocks := if needGap then
        blocks ++ [create_gap_block event_id fps last_end strip.frame_final_start "V"]
      else blocks
    let event_id := if needGap then event_id + 1 else event_id
    let filepath? := if needGap then
        some (if strip.type = "MOVIE" then strip.filepath
              else strip.directory ++ strip.elements.getD 0 "")
      else filepath?
    match filepath? with
    | none => .error (.nameError "filepath")
    | some fp =>
      let block := create_edl_block strip event_id fps "V" fp markers
        export_markers export_metadata
      let block := { block with reel := sanitize_reel_name block.reel "CMX3600" }
      write_edl_cmx3600_video_loop fps markers export_markers export_metadata rest
        (blocks ++ [block]) (event_id + 1) strip.frame_final_end filepath?

/-- The video-channel portion of write_edl's CMX3600 branch: select the
MOVIE/IMAGE strips of the configured video channel and run the loop
from scene.frame_start with event id 1 and the filepath local unbound. -/
def write_edl_cmx3600_video (fps scene_frame_start : Int) (strips : List Strip)
    (edl_video_channel : Int) (markers : List (Int × String))
    (export_markers export_metadata : Bool) : Except PyErr (List EDLBlock × Int) :=
  let video_strips := strips.filter (fun s =>
    s.channel == edl_video_channel && (s.type == "MOVIE" || s.type == "IMAGE"))
  write_edl_cmx3600_video_loop fps markers export_markers export_metadata
    video_strips [] 1 scene_frame_start none

end EdlExport

/-- A movie strip starting exactly at scene.frame_start. -/
def c10_strip1 : EdlExport.Strip :=
  { type := "MOVIE", channel := 1, filepath := "//clips/a.mov",
    frame_final_start := 1, frame_final_end := 50, frame_final_duration := 49 }

/-- A movie strip starting after a gap. -/
def c10_strip2 : EdlExport.Strip :=
  { type := "MOVIE", channel := 1, filepath := "//clips/a.mov",
    frame_final_start := 10, frame_final_end := 50, frame_final_duration := 40 }

/-- A movie strip butted directly against the previous one (no gap). -/
def c10_strip3 : EdlExport.Strip :=
  { type := "MOVIE", channel := 1, filepath := "//clips/b.mov",
    frame_final_start := 50, frame_final_end := 80, frame_final_duration := 30 }

/-- Claim C10 (code behavior at the failing inputs): when the first
video strip starts exactly at scene.frame_start, no gap is inserted and
the block-creation step reads the unbound local filepath (NameError);
and when a later strip needs no gap, the block it gets carries the
previous strip's file (a.mov) instead of its own (b.mov). -/
theorem c10_filepath_unbound_or_stale :
    EdlExport.write_edl_cmx3600_video 25 1 [c10_strip1] 1 [] true true =
      Except.error (PyErr.nameError "filepath") ∧
    (EdlExport.write_edl_cmx3600_video 25 1 [c10_strip2, c10_strip3] 1 [] true true).toOption.map
        (fun r => r.1.map EDLBlock.file) = some ["", "a.mov", "a.mov"] ∧
    c10_strip3.filepath = "//clips/b.mov" := by
  refine ⟨rfl, rfl, rfl⟩
